import Mathlib

set_option linter.unusedVariables false

/-
Verification development for the kernel-trace knowledge-graph pipeline.
Shallow embedding of the core components (trace_parser.py,
event_sequence_builder.py, entity_extractor.py): Python floats are
modelled as rationals, Python dicts as insertion-ordered association
lists, and the mutable builder objects as explicit state records.
-/

/-- A dynamically typed Python value as produced by the field coercer
(integer, float, text, or None). -/
inductive Value where
  | int (n : Int)
  | rat (q : ℚ)
  | str (s : String)
  | none
deriving DecidableEq, Repr

/-- Python truthiness (`if value:`). -/
def truthy : Value → Bool
  | .int n => n ≠ 0
  | .rat q => q ≠ 0
  | .str s => s ≠ ""
  | .none => false

/-- Python `value >= 0`; a text value would raise TypeError in the source,
which never happens on the `ret` field the coercer produces as an integer. -/
def pyGeZero : Value → Bool
  | .int n => 0 ≤ n
  | .rat q => 0 ≤ q
  | _ => false

/-- Python `value == 0` (numeric cross-type equality). -/
def pyEqZero : Value → Bool
  | .int n => n = 0
  | .rat q => q = 0
  | _ => false

/-- Python `int(value)`: identity on ints, truncation toward zero on
floats; a text value reaching `int()` in the modelled paths is non-numeric
(the coercer already converted numeric text) and raises, modelled as
`Option.none`. -/
def pyIntOf : Value → Option Int
  | .int n => some n
  | .rat q => some (if 0 ≤ q then ⌊q⌋ else ⌈q⌉)
  | _ => Option.none

/-- Python `str(value)`; the rational rendering stands in for the float
repr, whose exact text no modelled property inspects. -/
def pyStr : Value → String
  | .int n => toString n
  | .rat q => toString q
  | .str s => s
  | .none => "None"

/-- Remove all leading and trailing copies of one character
(one Python `str.strip(c)` call). -/
def stripChar (c : Char) (s : String) : String :=
  String.mk (((s.toList.dropWhile (· = c)).reverse.dropWhile (· = c)).reverse)

/-- Python `s.strip('"').strip("'")` as applied to names in the source. -/
def pyStrip (s : String) : String := stripChar '\'' (stripChar '"' s)

/-- Clean a name value the way `_update_fd_mapping` does: strip quotes when
it is a string, keep it unchanged otherwise. -/
def cleanName : Value → Value
  | .str s => .str (pyStrip s)
  | v => v

/-- Infix test on character lists (Python `pat in s` substring test). -/
def listInfix (pat : List Char) : List Char → Bool
  | [] => pat.isEmpty
  | c :: rest => pat.isPrefixOf (c :: rest) || listInfix pat rest

/-- Python substring containment `pat in s`. -/
def strIn (pat s : String) : Bool := listInfix pat.toList s.toList

/-- Python `s.replace(pat, rep)` on character lists; the fuel argument is
structurally decreased and, seeded with the list length, never runs out
because each step consumes at least one character. -/
def pyReplaceList (pat rep : List Char) : Nat → List Char → List Char
  | 0, l => l
  | _, [] => []
  | fuel + 1, c :: rest =>
    if pat ≠ [] ∧ pat.isPrefixOf (c :: rest) then
      rep ++ pyReplaceList pat rep fuel (rest.drop (pat.length - 1))
    else
      c :: pyReplaceList pat rep fuel rest

/-- Python `s.replace(pat, rep)` (all occurrences, left to right). -/
def pyReplace (s pat rep : String) : String :=
  String.mk (pyReplaceList pat.toList rep.toList s.toList.length s.toList)

/-- First-match lookup in an insertion-ordered association list
(Python `d.get(k)`). -/
def assocGet {α β : Type} [DecidableEq α] : List (α × β) → α → Option β
  | [], _ => Option.none
  | (k', v) :: rest, k => if k = k' then some v else assocGet rest k

/-- Python `d[k] = v`: replace in place when the key exists (keeping its
insertion position), append otherwise. -/
def assocSet {α β : Type} [DecidableEq α] : List (α × β) → α → β → List (α × β)
  | [], k, v => [(k, v)]
  | (k', v') :: rest, k, v =>
    if k = k' then (k, v) :: rest else (k', v') :: assocSet rest k v

/-- Python `d.pop(k)`. -/
def assocRemove {α β : Type} [DecidableEq α] : List (α × β) → α → List (α × β)
  | [], _ => []
  | (k', v') :: rest, k => if k = k' then rest else (k', v') :: assocRemove rest k

/-- Exact rational subtraction in a kernel-reducible form (Batteries marks
`Rat.sub` irreducible, which blocks evaluation by `decide`); `qsub_eq`
identifies it with `a - b`. -/
def qsub (a b : ℚ) : ℚ :=
  mkRat (a.num * (b.den : Int) - b.num * (a.den : Int)) (a.den * b.den)

/-- Exact rational addition in a kernel-reducible form; see `qsub`. -/
def qadd (a b : ℚ) : ℚ :=
  mkRat (a.num * (b.den : Int) + b.num * (a.den : Int)) (a.den * b.den)

/-- Exact multiplication by a natural in a kernel-reducible form. -/
def qmulNat (a : ℚ) (n : Nat) : ℚ := mkRat (a.num * (n : Int)) a.den

/-- Exact division by a natural in a kernel-reducible form. -/
def qdivNat (a : ℚ) (n : Nat) : ℚ := mkRat a.num (a.den * n)

theorem qsub_eq (a b : ℚ) : qsub a b = a - b := by
  have ha : ((a.den : ℚ)) ≠ 0 := by positivity
  have hb : ((b.den : ℚ)) ≠ 0 := by positivity
  unfold qsub
  rw [Rat.mkRat_eq_div]
  push_cast
  rw [eq_comm]
  nth_rewrite 1 [← Rat.num_div_den a]
  nth_rewrite 1 [← Rat.num_div_den b]
  field_simp
  ring

theorem qadd_eq (a b : ℚ) : qadd a b = a + b := by
  have ha : ((a.den : ℚ)) ≠ 0 := by positivity
  have hb : ((b.den : ℚ)) ≠ 0 := by positivity
  unfold qadd
  rw [Rat.mkRat_eq_div]
  push_cast
  rw [eq_comm]
  nth_rewrite 1 [← Rat.num_div_den a]
  nth_rewrite 1 [← Rat.num_div_den b]
  field_simp

theorem qmulNat_eq (a : ℚ) (n : Nat) : qmulNat a n = a * n := by
  have ha : ((a.den : ℚ)) ≠ 0 := by positivity
  unfold qmulNat
  rw [Rat.mkRat_eq_div]
  push_cast
  rw [eq_comm]
  nth_rewrite 1 [← Rat.num_div_den a]
  field_simp

theorem qdivNat_eq (a : ℚ) (n : Nat) (hn : n ≠ 0) : qdivNat a n = a / n := by
  have ha : ((a.den : ℚ)) ≠ 0 := by positivity
  have hn' : ((n : ℚ)) ≠ 0 := by exact_mod_cast hn
  unfold qdivNat
  rw [Rat.mkRat_eq_div]
  push_cast
  rw [eq_comm]
  nth_rewrite 1 [← Rat.num_div_den a]
  field_simp

example : strIn "syscall_entry" "syscall_entry_read" = true := by decide
example : strIn "syscall_entry" "sched_switch" = false := by decide
example : pyReplace "syscall_entry_read" "syscall_entry_" "" = "read" := by decide
example : pyStrip "\"/tmp/a\"" = "/tmp/a" := by decide

/-! ## Data model (trace_parser.KernelEvent, event_sequence_builder state) -/

/-- `trace_parser.KernelEvent`: one parsed trace event (the `raw_line`
field is omitted; nothing downstream reads it). -/
structure KernelEvent where
  timestamp : ℚ
  cpu_id : Int
  event_type : String
  process_name : String
  pid : Int
  tid : Int
  event_data : List (String × Value)
deriving DecidableEq, Repr

/-- A paired syscall dictionary as built in
`EventSequenceBuilder._pair_syscalls`. -/
structure PairedSyscall where
  syscall_name : String
  tid : Int
  pid : Int
  process_name : String
  cpu_id : Int
  start_time : ℚ
  end_time : ℚ
  duration : ℚ
  entry_data : List (String × Value)
  exit_data : List (String × Value)
  return_value : Option Value
deriving DecidableEq, Repr

/-- One `(start_time, end_time, path)` tuple of the temporal fd map;
`stop` renders the tuple's `end` slot (a Lean keyword), `Option.none`
meaning "still open". -/
structure FdInterval where
  start : ℚ
  stop : Option ℚ
  path : Value
deriving DecidableEq, Repr

abbrev FdKey := Int × Int

abbrev FdMap := List (FdKey × List FdInterval)

/-- The fd-tracking slice of `EventSequenceBuilder`'s mutable state:
`fd_map` plus the counters the class defines for it. -/
structure FdState where
  fd_map : FdMap
  fd_mappings_created : Nat
  fd_mappings_cleaned : Nat
  fd_mappings_from_lsof : Nat
deriving DecidableEq, Repr

def initFdState : FdState :=
  { fd_map := [], fd_mappings_created := 0, fd_mappings_cleaned := 0,
    fd_mappings_from_lsof := 0 }

/-- `self.fd_map[key].append(iv)` preceded by `if key not in self.fd_map:
self.fd_map[key] = []`. -/
def fdAppend (m : FdMap) (k : FdKey) (iv : FdInterval) : FdMap :=
  match assocGet m k with
  | some ivs => assocSet m k (ivs ++ [iv])
  | Option.none => m ++ [(k, [iv])]

/-- The backward scan of `_update_fd_mapping`'s close branch: update the
most recently appended interval whose end is still `None` with the close
time, leaving everything else in place. -/
def close_last_open (t : ℚ) : List FdInterval → List FdInterval
  | [] => []
  | iv :: rest =>
    if rest.any (fun j => j.stop.isNone) then iv :: close_last_open t rest
    else if iv.stop.isNone then { iv with stop := some t } :: rest
    else iv :: rest

/-! ## EventSequenceBuilder._update_fd_mapping -/

/-- `EventSequenceBuilder._update_fd_mapping`: update the temporal fd map
from one open/socket/close pairing. Return values are matched as integers:
the field coercer only ever produces an integer `ret`. -/
def update_fd_mapping (st : FdState) (pair : PairedSyscall) : FdState :=
  if pair.syscall_name ∈ (["open", "openat", "openat2"] : List String) then
    match pair.return_value with
    | some (.int fd) =>
      if 0 ≤ fd then
        match assocGet pair.entry_data "filename" with
        | some v =>
          if truthy v then
            { st with
              fd_map := fdAppend st.fd_map (pair.pid, fd)
                ⟨pair.start_time, Option.none, cleanName v⟩,
              fd_mappings_created := st.fd_mappings_created + 1 }
          else st
        | Option.none => st
      else st
    | _ => st
  else if pair.syscall_name = "socket" then
    match pair.return_value with
    | some (.int fd) =>
      if 0 ≤ fd then
        let socket_id :=
          "socket_" ++ toString pair.pid ++ "_" ++ toString pair.start_time
        { st with
          fd_map := fdAppend st.fd_map (pair.pid, fd)
            ⟨pair.start_time, Option.none, .str socket_id⟩,
          fd_mappings_created := st.fd_mappings_created + 1 }
      else st
    | _ => st
  else if pair.syscall_name = "close" then
    match assocGet pair.entry_data "fd" with
    | some (.int fd) =>
      if (pair.return_value.map pyEqZero).getD false then
        match assocGet st.fd_map (pair.pid, fd) with
        | some ivs =>
          if ivs.any (fun j => j.stop.isNone) then
            { st with
              fd_map := assocSet st.fd_map (pair.pid, fd)
                (close_last_open pair.end_time ivs),
              fd_mappings_cleaned := st.fd_mappings_cleaned + 1 }
          else st
        | Option.none => st
      else st
    | _ => st
  else st

/-! ## EventSequenceBuilder._resolve_fd -/

/-- The interval scan of `_resolve_fd`: first interval in list order with
`start <= t` and (`end is None` or `t <= end`). -/
def scan_intervals (op_time : ℚ) : List FdInterval → Option Value
  | [] => Option.none
  | iv :: rest =>
    if iv.start ≤ op_time then
      match iv.stop with
      | Option.none => some iv.path
      | some e =>
        if op_time ≤ e then some iv.path else scan_intervals op_time rest
    else scan_intervals op_time rest

/-- `EventSequenceBuilder._resolve_fd`. -/
def resolve_fd (m : FdMap) (pid fd : Int) (op_time : ℚ) : Option Value :=
  match assocGet m (pid, fd) with
  | Option.none => Option.none
  | some ivs => scan_intervals op_time ivs

/-! ## EventSequenceBuilder._load_initial_fd_state (lsof snapshot seeding) -/

/-- The running state of `_parse_lsof_output`'s line loop. -/
structure LsofScan where
  current_pid : Option Int
  current_fd : Option Int
  fd_mappings : List (FdKey × String)
deriving DecidableEq, Repr

/-- Python `int(s)` restricted to an optional sign followed by digits. -/
def pyParseInt (s : String) : Option Int :=
  match s.toList with
  | '-' :: ds =>
    if ds ≠ [] ∧ ds.all Char.isDigit then
      some (-(Int.ofNat (String.mk ds).toNat!)) else Option.none
  | ds =>
    if ds ≠ [] ∧ ds.all Char.isDigit then
      some (Int.ofNat (String.mk ds).toNat!) else Option.none

/-- One line of `_parse_lsof_output`'s loop (the line arrives already
stripped; blank lines are skipped by the caller fold). -/
def lsof_line (st : LsofScan) (line : String) : LsofScan :=
  if line = "" then st
  else if line.toList.headD ' ' = 'p' then
    { st with current_pid := pyParseInt (String.mk (line.toList.drop 1)) }
  else if line.toList.headD ' ' = 'f' then
    { st with current_fd := pyParseInt (String.mk (line.toList.drop 1)) }
  else if line.toList.headD ' ' = 'n' then
    match st.current_pid, st.current_fd with
    | some pid, some fd =>
      let file_path := String.mk (line.toList.drop 1)
      if file_path ≠ "" ∧ ¬ ("type=".toList.isPrefixOf file_path.toList) then
        { st with fd_mappings := assocSet st.fd_mappings (pid, fd) file_path }
      else st
    | _, _ => st
  else st

/-- `EventSequenceBuilder._parse_lsof_output`: fold the `p`/`f`/`n` line
format into `(pid, fd) -> name` mappings. -/
def parse_lsof_output (lines : List String) : List (FdKey × String) :=
  (lines.foldl lsof_line ⟨Option.none, Option.none, []⟩).fd_mappings

/-- The seeding loop of `_load_initial_fd_state`: each snapshot mapping is
appended as an interval with `start = 0.0` and `end = None`. -/
def load_initial_fd_state (mappings : List (FdKey × String)) (st : FdState) :
    FdState :=
  mappings.foldl
    (fun st kv =>
      { st with
        fd_map := fdAppend st.fd_map kv.1 ⟨0, Option.none, .str kv.2⟩,
        fd_mappings_from_lsof := st.fd_mappings_from_lsof + 1 })
    st

/-! ## EventSequenceBuilder._pair_syscalls -/

/-- The mutable state of `_pair_syscalls`: the pending-entry dict, the
accumulated pairs, and the builder's fd-tracking state it updates. -/
structure PairerState where
  pending_entries : List ((Int × String) × KernelEvent)
  pairs : List PairedSyscall
  fd : FdState
deriving DecidableEq, Repr

/-- The pair dictionary constructed when an exit matches a pending entry. -/
def make_pair (syscall_name : String) (entry_event event : KernelEvent) :
    PairedSyscall :=
  { syscall_name := syscall_name,
    tid := event.tid, pid := event.pid,
    process_name := event.process_name,
    cpu_id := event.cpu_id,
    start_time := entry_event.timestamp, end_time := event.timestamp,
    duration := qsub event.timestamp entry_event.timestamp,
    entry_data := entry_event.event_data, exit_data := event.event_data,
    return_value := assocGet event.event_data "ret" }

/-- One iteration of `_pair_syscalls`' event loop. -/
def pair_step (st : PairerState) (event : KernelEvent) : PairerState :=
  if strIn "syscall_entry" event.event_type then
    let syscall_name := pyReplace event.event_type "syscall_entry_" ""
    { st with pending_entries :=
        assocSet st.pending_entries (event.tid, syscall_name) event }
  else if strIn "syscall_exit" event.event_type then
    let syscall_name := pyReplace event.event_type "syscall_exit_" ""
    match assocGet st.pending_entries (event.tid, syscall_name) with
    | some entry_event =>
      let pair := make_pair syscall_name entry_event event
      { pending_entries := assocRemove st.pending_entries (event.tid, syscall_name),
        pairs := st.pairs ++ [pair],
        fd := update_fd_mapping st.fd pair }
    | Option.none => st
  else st

/-- `EventSequenceBuilder._pair_syscalls`, starting from the builder's
fd state (possibly pre-seeded from a snapshot). -/
def pair_syscalls (fd0 : FdState) (events : List KernelEvent) : PairerState :=
  events.foldl pair_step { pending_entries := [], pairs := [], fd := fd0 }

/-! ## Sequence grouping (EventSequenceBuilder.GROUPING_RULES, _group_by_rule,
_create_sequence_from_pairs, build_sequences) -/

/-- One entry of `EventSequenceBuilder.GROUPING_RULES` (or of a
schema-loaded rule table): the rule dictionary's fields, with
`rule.get('time_gap_ms', 100)` and `rule.get('immediate', False)`
already materialized. -/
structure GroupRule where
  syscalls : List String
  group_by : List String
  time_gap_ms : ℚ
  immediate : Bool
deriving DecidableEq, Repr

/-- The built-in rule table `EventSequenceBuilder.GROUPING_RULES`
(insertion order preserved, as iterated by `build_sequences`). -/
def GROUPING_RULES : List (String × GroupRule) :=
  [ ("read", ⟨["read", "pread64", "readv", "preadv", "pread"], ["tid", "fd"], 100, false⟩),
    ("write", ⟨["write", "pwrite64", "writev", "pwritev", "pwrite"], ["tid", "fd"], 100, false⟩),
    ("open", ⟨["open", "openat", "openat2"], ["tid"], 10, true⟩),
    ("socket", ⟨["socket"], ["tid"], 10, true⟩),
    ("close", ⟨["close"], ["tid"], 10, true⟩),
    ("socket_send", ⟨["send", "sendto", "sendmsg", "sendmmsg", "write"], ["tid", "socket_fd"], 50, false⟩),
    ("socket_recv", ⟨["recv", "recvfrom", "recvmsg", "recvmmsg", "read"], ["tid", "socket_fd"], 50, false⟩),
    ("mmap", ⟨["mmap", "mmap2", "munmap", "mremap"], ["tid"], 50, false⟩) ]

/-- `str(pair.get(field, 'unknown'))` over the pair dictionary's scalar
fields; the `entry_data`/`exit_data` dict reprs are never used as grouping
keys by any rule. -/
def pair_field_str (p : PairedSyscall) (f : String) : String :=
  if f = "syscall_name" then p.syscall_name
  else if f = "tid" then toString p.tid
  else if f = "pid" then toString p.pid
  else if f = "process_name" then p.process_name
  else if f = "cpu_id" then toString p.cpu_id
  else if f = "start_time" then toString p.start_time
  else if f = "end_time" then toString p.end_time
  else if f = "duration" then toString p.duration
  else if f = "return_value" then
    match p.return_value with
    | some v => pyStr v
    | Option.none => "None"
  else "unknown"

/-- The grouping-key construction of `_group_by_rule`: per `group_by`
field, `str(entry_data.get('fd'))` (or `'no_fd'`) for the descriptor
fields, `str(pair.get(field, 'unknown'))` otherwise, joined with `:`. -/
def group_key (rule : GroupRule) (p : PairedSyscall) : String :=
  String.intercalate ":"
    (rule.group_by.map (fun key_field =>
      if key_field = "fd" ∨ key_field = "socket_fd" then
        match assocGet p.entry_data "fd" with
        | some v => pyStr v
        | Option.none => "no_fd"
      else pair_field_str p key_field))

/-- The `defaultdict(list)` grouping loop of `_group_by_rule`
(insertion-ordered keys, append within a key). -/
def build_groups (rule : GroupRule) (matching_pairs : List PairedSyscall) :
    List (String × List PairedSyscall) :=
  matching_pairs.foldl
    (fun groups p =>
      let k := group_key rule p
      match assocGet groups k with
      | some ps => assocSet groups k (ps ++ [p])
      | Option.none => groups ++ [(k, [p])])
    []

/-- Stable insertion of one element: placed after every element not
strictly greater, reproducing Python's stable `list.sort`. -/
def pySortInsert {α : Type} (lt : α → α → Bool) (x : α) : List α → List α
  | [] => [x]
  | y :: ys => if lt x y then x :: y :: ys else y :: pySortInsert lt x ys

/-- Python's stable `list.sort(key=...)`, modelled as stable insertion
sort over the strict key comparison. -/
def pySort {α : Type} (lt : α → α → Bool) (l : List α) : List α :=
  l.foldl (fun acc x => pySortInsert lt x acc) []

/-- One summarized record of an `EventSequence.event_stream`. -/
structure StreamEvent where
  timestamp : ℚ
  syscall : String
  duration : ℚ
  return_value : Option Value
  key_params : List (String × Value)
deriving DecidableEq, Repr

/-- `event_sequence_builder.EventSequence` (the dataclass). -/
structure EventSequence where
  sequence_id : String
  operation : String
  start_time : ℚ
  end_time : ℚ
  count : Nat
  event_stream : List StreamEvent
  entity_target : Option Value
  return_value : Option Value
  bytes_transferred : Int
  thread_id : Int
  process_id : Int
  cpu_id : Int
deriving DecidableEq, Repr

/-- `EventSequence.duration_ms`. -/
def EventSequence.duration_ms (s : EventSequence) : ℚ :=
  qmulNat (qsub s.end_time s.start_time) 1000

/-- The builder state threaded through sequence creation:
`sequence_counter`, the (read-only, by this point) `fd_map`, and the
`fd_mappings_resolved` counter. -/
structure BuilderState where
  sequence_counter : Nat
  fd_map : FdMap
  fd_mappings_resolved : Nat
deriving DecidableEq, Repr

/-- The `bytes_transferred` accumulation: `if ret_val and ret_val > 0`,
summed; `ret` is always an integer from the field coercer. -/
def add_bytes (acc : Int) (rv : Option Value) : Int :=
  match rv with
  | some (.int n) => if 0 < n then acc + n else acc
  | _ => acc

/-- `EventSequenceBuilder._create_sequence_from_pairs` on a non-empty
batch `p0 :: rest` (the source always passes a non-empty list). -/
def create_sequence_from_pairs (st : BuilderState) (p0 : PairedSyscall)
    (rest : List PairedSyscall) (operation : String) :
    EventSequence × BuilderState :=
  let counter := st.sequence_counter + 1
  let sequence_id := "seq_" ++ operation ++ "_" ++ toString counter
  let pairsAll := p0 :: rest
  let plast := rest.getLastD p0
  let bytes_transferred :=
    pairsAll.foldl (fun acc p => add_bytes acc p.return_value) 0
  let resolved : Option Value × Nat :=
    if truthy ((assocGet p0.entry_data "filename").getD Value.none) then
      (assocGet p0.entry_data "filename", 0)
    else if truthy ((assocGet p0.entry_data "pathname").getD Value.none) then
      (assocGet p0.entry_data "pathname", 0)
    else if operation = "socket" then
      match p0.return_value with
      | some (.int rv) =>
        if 0 ≤ rv then
          match resolve_fd st.fd_map p0.pid rv p0.start_time with
          | some v => if truthy v then (some v, 1) else (Option.none, 0)
          | Option.none => (Option.none, 0)
        else (Option.none, 0)
      | _ => (Option.none, 0)
    else
      match assocGet p0.entry_data "fd" with
      | some fdv =>
        let fallback : Option Value × Nat :=
          (some (.str ("fd:" ++ pyStr fdv)), 0)
        match fdv with
        | .int fd =>
          match resolve_fd st.fd_map p0.pid fd p0.start_time with
          | some v => if truthy v then (some v, 1) else fallback
          | Option.none => fallback
        | _ => fallback
      | Option.none => (Option.none, 0)
  let event_stream := pairsAll.map (fun p =>
    { timestamp := p.start_time, syscall := p.syscall_name,
      duration := p.duration, return_value := p.return_value,
      key_params := p.entry_data.filter (fun kv =>
        (["fd", "count", "buf", "flags", "offset"] : List String).contains kv.1) })
  ({ sequence_id := sequence_id, operation := operation,
     start_time := p0.start_time, end_time := plast.end_time,
     count := pairsAll.length, event_stream := event_stream,
     entity_target := resolved.1, return_value := plast.return_value,
     bytes_transferred := bytes_transferred,
     thread_id := p0.tid, process_id := p0.pid, cpu_id := p0.cpu_id },
   { st with sequence_counter := counter,
             fd_mappings_resolved := st.fd_mappings_resolved + resolved.2 })

/-- The greedy time-gap batching loop of `_group_by_rule`: each batch is
kept as head-plus-tail so emptiness never arises. -/
def batch_go (thr : ℚ) (b : PairedSyscall × List PairedSyscall) :
    List PairedSyscall → List (PairedSyscall × List PairedSyscall)
  | [] => [b]
  | p :: ps =>
    let lastp := b.2.getLastD b.1
    if qsub p.start_time lastp.end_time ≤ thr then
      batch_go thr (b.1, b.2 ++ [p]) ps
    else
      b :: batch_go thr (p, []) ps

/-- `EventSequenceBuilder._group_by_rule`. -/
def group_by_rule (st : BuilderState) (syscall_pairs : List PairedSyscall)
    (operation : String) (rule : GroupRule) :
    List EventSequence × BuilderState :=
  let matching_pairs :=
    syscall_pairs.filter (fun p => rule.syscalls.contains p.syscall_name)
  if matching_pairs.isEmpty then ([], st)
  else
    let groups := build_groups rule matching_pairs
    let time_gap_threshold := qdivNat rule.time_gap_ms 1000
    groups.foldl
      (fun acc g =>
        let group_pairs := pySort (fun a b => a.start_time < b.start_time) g.2
        if rule.immediate then
          group_pairs.foldl
            (fun acc p =>
              let r := create_sequence_from_pairs acc.2 p [] operation
              (acc.1 ++ [r.1], r.2))
            acc
        else
          match group_pairs with
          | [] => acc
          | h :: t =>
            (batch_go time_gap_threshold (h, []) t).foldl
              (fun acc b =>
                let r := create_sequence_from_pairs acc.2 b.1 b.2 operation
                (acc.1 ++ [r.1], r.2))
              acc)
      ([], st)

/-- `EventSequenceBuilder.build_sequences`: pair the events (building the
fd map), group per rule in table order, and sort the sequences by start
time with Python's stable sort. -/
def build_sequences (fd0 : FdState) (events : List KernelEvent) :
    List EventSequence × PairerState × BuilderState :=
  let ps := pair_syscalls fd0 events
  let st0 : BuilderState :=
    { sequence_counter := 0, fd_map := ps.fd.fd_map, fd_mappings_resolved := 0 }
  let folded := GROUPING_RULES.foldl
    (fun acc oprule =>
      let r := group_by_rule acc.2 ps.pairs oprule.1 oprule.2
      (acc.1 ++ r.1, r.2))
    ([], st0)
  (pySort (fun a b => a.start_time < b.start_time) folded.1, ps, folded.2)

/-! ## EntityExtractor._extract_files -/

/-- `entity_extractor.File` (the dataclass fields touched by
`_extract_files`; `inode` is never set there). -/
structure FileEnt where
  path : String
  file_type : String
  first_access : Option ℚ
  last_access : Option ℚ
  access_count : Nat
deriving DecidableEq, Repr

/-- The slice of `EntityExtractor` state `_extract_files` reads or
writes: the `files` dict and the `(pid, fd) -> path` map `fd_to_file`. -/
structure FilesState where
  files : List (String × FileEnt)
  fd_to_file : List (FdKey × String)
deriving DecidableEq, Repr

/-- The `filename = event_data.get('filename', event_data.get('pathname'))`
lookup. -/
def filenameOf (e : KernelEvent) : Value :=
  match assocGet e.event_data "filename" with
  | some v => v
  | Option.none => (assocGet e.event_data "pathname").getD Value.none

/-- One iteration of `_extract_files`' event loop. The exit-open branch is
a literal `pass` in the source; the read/write branch only updates a file
found through `fd_to_file`. -/
def extract_files_step (st : FilesState) (e : KernelEvent) : FilesState :=
  if strIn "syscall_entry_open" e.event_type ∨
     strIn "syscall_entry_openat" e.event_type then
    match filenameOf e with
    | .str s =>
      if s ≠ "" then
        let filename := pyStrip s
        let files :=
          match assocGet st.files filename with
          | some _ => st.files
          | Option.none =>
            st.files ++ [(filename,
              { path := filename, file_type := "file",
                first_access := some e.timestamp,
                last_access := Option.none, access_count := 0 })]
        match assocGet files filename with
        | some f =>
          let f' := { f with last_access := some e.timestamp,
                             access_count := f.access_count + 1 }
          { st with files := assocSet files filename f' }
        | Option.none => { st with files := files }
      else st
    | _ => st
  else if strIn "syscall_exit_open" e.event_type ∨
          strIn "syscall_exit_openat" e.event_type then st
  else if (["syscall_entry_read", "syscall_entry_write",
            "syscall_entry_pread", "syscall_entry_pwrite"] :
            List String).any (fun sc => strIn sc e.event_type) then
    match assocGet e.event_data "fd" with
    | some (.int fd) =>
      if 0 ≤ fd then
        match assocGet st.fd_to_file (e.pid, fd) with
        | some filename =>
          match assocGet st.files filename with
          | some f =>
            let f' := { f with last_access := some e.timestamp,
                               access_count := f.access_count + 1 }
            { st with files := assocSet st.files filename f' }
          | Option.none => st
        | Option.none => st
      else st
    | _ => st
  else st

/-- `EntityExtractor._extract_files`: fold the event stream once from the
freshly initialized extractor state. -/
def extract_files (events : List KernelEvent) : FilesState :=
  events.foldl extract_files_step { files := [], fd_to_file := [] }

/-- The access count `_extract_files` leaves for a path (0 when the path
was never recorded). -/
def fileAccessCount (st : FilesState) (p : String) : Nat :=
  match assocGet st.files p with
  | some f => f.access_count
  | Option.none => 0

/-! ## TraceParser context tracking (_update_context and the
identity-resolution part of _parse_line) -/

/-- The context-tracking slice of `TraceParser`'s state. -/
structure ParserCtx where
  tid_context : List (Int × (Int × String))
  cpu_context : List (Int × Int)
  context_updates : Nat
deriving DecidableEq, Repr

def initParserCtx : ParserCtx := { tid_context := [], cpu_context := [], context_updates := 0 }

/-- `str(comm).strip('"').strip("'")` as applied throughout
`_update_context`. -/
def commStr (v : Value) : String := pyStrip (pyStr v)

/-- Record `tid -> (tid, comm)` only when the tid is not yet known
(the common pattern of `_update_context`'s sched_switch / waking / stat
branches). -/
def ctxInsertIfNew (ctx : ParserCtx) (tid : Int) (comm : String) : ParserCtx :=
  match assocGet ctx.tid_context tid with
  | some _ => ctx
  | Option.none =>
    { ctx with tid_context := assocSet ctx.tid_context tid (tid, comm),
               context_updates := ctx.context_updates + 1 }

/-- `TraceParser._update_context`. Failed `int()` conversions raise inside
the guarding try/except, aborting the rest of the update while keeping
prior mutations; in the modelled branches they are rendered by `pyIntOf`
returning `Option.none`, upon which the remaining updates are skipped. -/
def update_context (ctx : ParserCtx) (event_type : String)
    (d : List (String × Value)) : ParserCtx :=
  if event_type = "sched_process_fork" then
    let ctx1 :=
      match assocGet d "child_tid", assocGet d "child_pid", assocGet d "child_comm" with
      | some ct, some cp, some cc =>
        match pyIntOf ct, pyIntOf cp with
        | some cti, some cpi =>
          some { ctx with
                 tid_context := assocSet ctx.tid_context cti (cpi, commStr cc),
                 context_updates := ctx.context_updates + 1 }
        | _, _ => Option.none
      | _, _, _ => some ctx
    match ctx1 with
    | Option.none => ctx
    | some ctx1 =>
      match assocGet d "parent_tid", assocGet d "parent_pid", assocGet d "parent_comm" with
      | some pt, some pp, some pc =>
        match pyIntOf pt, pyIntOf pp with
        | some pti, some ppi =>
          { ctx1 with
            tid_context := assocSet ctx1.tid_context pti (ppi, commStr pc),
            context_updates := ctx1.context_updates + 1 }
        | _, _ => ctx1
      | _, _, _ => ctx1
  else if event_type = "sched_switch" then
    let ctx1 :=
      match assocGet d "cpu_id", assocGet d "next_tid" with
      | some cv, some nv =>
        match pyIntOf cv, pyIntOf nv with
        | some ci, some ni =>
          some { ctx with cpu_context := assocSet ctx.cpu_context ci ni }
        | _, _ => Option.none
      | _, _ => some ctx
    match ctx1 with
    | Option.none => ctx
    | some ctx1 =>
      let ctx2 :=
        match assocGet d "next_tid", assocGet d "next_comm" with
        | some nv, some nc =>
          match pyIntOf nv with
          | some ni =>
            let ncs := commStr nc
            match assocGet ctx1.tid_context ni with
            | Option.none =>
              some { ctx1 with
                     tid_context := assocSet ctx1.tid_context ni (ni, ncs),
                     context_updates := ctx1.context_updates + 1 }
            | some (old_pid, old_comm) =>
              if old_comm ≠ ncs then
                some { ctx1 with
                       tid_context := assocSet ctx1.tid_context ni (old_pid, ncs),
                       context_updates := ctx1.context_updates + 1 }
              else some ctx1
          | Option.none => Option.none
        | _, _ => some ctx1
      match ctx2 with
      | Option.none => ctx1
      | some ctx2 =>
        match assocGet d "prev_tid", assocGet d "prev_comm" with
        | some pv, some pc =>
          match pyIntOf pv with
          | some pi => ctxInsertIfNew ctx2 pi (commStr pc)
          | Option.none => ctx2
        | _, _ => ctx2
  else if event_type = "sched_waking" ∨ event_type = "sched_wakeup" then
    match assocGet d "tid", assocGet d "comm" with
    | some tv, some cv =>
      match pyIntOf tv with
      | some ti => ctxInsertIfNew ctx ti (commStr cv)
      | Option.none => ctx
    | _, _ => ctx
  else if "sched_stat_".toList.isPrefixOf event_type.toList then
    match assocGet d "tid", assocGet d "comm" with
    | some tv, some cv =>
      match pyIntOf tv with
      | some ti => ctxInsertIfNew ctx ti (commStr cv)
      | Option.none => ctx
    | _, _ => ctx
  else if event_type = "sched_process_exec" then
    match assocGet d "tid", assocGet d "filename" with
    | some tv, some fv =>
      match pyIntOf tv with
      | some ti =>
        let comm := pyStrip (((pyStr fv).splitOn "/").getLastD (pyStr fv))
        let old := (assocGet ctx.tid_context ti).getD (ti, comm)
        { ctx with tid_context := assocSet ctx.tid_context ti (old.1, comm),
                   context_updates := ctx.context_updates + 1 }
      | Option.none => ctx
    | _, _ => ctx
  else ctx

/-- The first-`some` chain of `event_data.get(a, event_data.get(b, ...))`. -/
def firstField (d : List (String × Value)) : List String → Option Value
  | [] => Option.none
  | k :: ks =>
    match assocGet d k with
    | some v => some v
    | Option.none => firstField d ks

/-- The identity-resolution block of `TraceParser._parse_line` (its lines
after `_update_context` has run): returns `(pid, tid, process_name)`, or
`Option.none` when an `int()` conversion raises and the line is counted as
a parse error. -/
def resolve_identity (ctx : ParserCtx) (event_type : String)
    (d : List (String × Value)) : Option (Int × Int × String) :=
  match pyIntOf ((assocGet d "cpu_id").getD (Value.int (-1))) with
  | Option.none => Option.none
  | some cpu_id =>
    let pid0 := firstField d ["pid", "vpid", "parent_pid"]
    let tid0 := firstField d ["tid", "vtid", "child_tid"]
    let comm0 := firstField d ["procname", "comm", "child_comm"]
    let tid1 :=
      match tid0 with
      | some v => some v
      | Option.none => firstField d ["next_tid", "prev_tid"]
    let tid2 :=
      match tid1 with
      | some v => some v
      | Option.none =>
        if 0 ≤ cpu_id then
          match assocGet ctx.cpu_context cpu_id with
          | some ct => some (Value.int ct)
          | Option.none => Option.none
        else Option.none
    let enriched :=
      match tid2 with
      | some (.int n) =>
        match assocGet ctx.tid_context n with
        | some (context_pid, context_comm) =>
          (pid0.getD (Value.int context_pid) |> some,
           comm0.getD (Value.str context_comm) |> some)
        | Option.none => (pid0, comm0)
      | _ => (pid0, comm0)
    let pidv := enriched.1
    let commv := enriched.2
    let pidFinal : Option Int :=
      match pidv with
      | some v => pyIntOf v
      | Option.none => some (-1)
    let tidFinal : Option Int :=
      match tid2 with
      | some v => pyIntOf v
      | Option.none => some (-1)
    match pidFinal, tidFinal with
    | some p, some t =>
      let process_name :=
        match commv with
        | some v => pyStrip (pyStr v)
        | Option.none => "unknown"
      some (p, t, process_name)
    | _, _ => Option.none

/-- The context portion of `TraceParser._parse_line` on one already
tokenized line: update the context maps, then resolve the event's
identity against the updated maps. -/
def parse_line_ctx (ctx : ParserCtx) (event_type : String)
    (d : List (String × Value)) : ParserCtx × Option (Int × Int × String) :=
  let ctx' := update_context ctx event_type d
  (ctx', resolve_identity ctx' event_type d)

/-! ## Summary and the end-to-end pipeline -/

/-- The summary object of `EventSequenceBuilder._generate_summary`. -/
structure SequenceSummary where
  total_sequences : Nat
  operations : List (String × Nat)
  total_bytes_transferred : Int
  average_durations_ms : List (String × ℚ)
deriving DecidableEq, Repr

/-- `EventSequenceBuilder._generate_summary`. -/
def generate_summary (sequences : List EventSequence) : SequenceSummary :=
  let folded := sequences.foldl
    (fun acc seq =>
      let counts :=
        match assocGet acc.1 seq.operation with
        | some n => assocSet acc.1 seq.operation (n + 1)
        | Option.none => acc.1 ++ [(seq.operation, 1)]
      let durs :=
        match assocGet acc.2.1 seq.operation with
        | some l => assocSet acc.2.1 seq.operation (l ++ [seq.duration_ms])
        | Option.none => acc.2.1 ++ [(seq.operation, [seq.duration_ms])]
      (counts, durs, acc.2.2 + seq.bytes_transferred))
    (([], [], 0) : List (String × Nat) × List (String × List ℚ) × Int)
  { total_sequences := sequences.length,
    operations := folded.1,
    total_bytes_transferred := folded.2.2,
    average_durations_ms := folded.2.1.map (fun kv =>
      (kv.1, if kv.2.length = 0 then 0
             else qdivNat (kv.2.foldl qadd 0) kv.2.length)) }

/-- Everything the pipeline derives from one input event list. -/
structure PipelineOutput where
  events : List KernelEvent
  entities : FilesState
  sequences : List EventSequence
  summary : SequenceSummary
  fd : FdState
  builder : BuilderState
deriving DecidableEq, Repr

/-- The full core pipeline on an already tokenized event list, with the
two `datetime.now()` readings of `TraceParser.parse` passed in
explicitly as `clock_start`/`clock_end`: the source uses them only to log
the parse duration, returned here as the second component, separate from
the derived output. -/
def run_pipeline (clock_start clock_end : ℚ)
    (snapshot : List (FdKey × String)) (events : List KernelEvent) :
    PipelineOutput × ℚ :=
  let parse_log_duration := qsub clock_end clock_start
  let fd0 := load_initial_fd_state snapshot initFdState
  let r := build_sequences fd0 events
  let out : PipelineOutput :=
    { events := events,
      entities := extract_files events,
      sequences := r.1,
      summary := generate_summary r.1,
      fd := r.2.1.fd,
      builder := r.2.2 }
  (out, parse_log_duration)

/-! ## Concrete trace fragments used by the theorems -/

/-- Snapshot mapping: before tracing, process 1 already has fd 3 open on
`/pre/file`. -/
def preSnapshot : List (FdKey × String) := [((1, 3), "/pre/file")]

/-- A successful `openat` entry for `/tmp/new` by pid 1 at t = 5. -/
def openNewEntry : KernelEvent :=
  { timestamp := 5, cpu_id := 0, event_type := "syscall_entry_openat",
    process_name := "app", pid := 1, tid := 1,
    event_data := [("flags", .int 0), ("filename", .str "/tmp/new")] }

/-- The matching `openat` exit returning fd 3 at t = 5.1. -/
def openNewExit : KernelEvent :=
  { timestamp := mkRat 51 10, cpu_id := 0, event_type := "syscall_exit_openat",
    process_name := "app", pid := 1, tid := 1,
    event_data := [("ret", .int 3)] }

/-- An `openat` entry for `/tmp/a` by pid 1 at t = 1. -/
def openAEntry : KernelEvent :=
  { timestamp := 1, cpu_id := 0, event_type := "syscall_entry_openat",
    process_name := "app", pid := 1, tid := 1,
    event_data := [("flags", .int 0), ("filename", .str "/tmp/a")] }

/-- The matching `openat` exit returning fd 3 at t = 1.01. -/
def openAExit : KernelEvent :=
  { timestamp := mkRat 101 100, cpu_id := 0, event_type := "syscall_exit_openat",
    process_name := "app", pid := 1, tid := 1,
    event_data := [("ret", .int 3)] }

/-- A `read` entry on fd 3 by pid 1 at t = 1.02. -/
def readFd3Entry : KernelEvent :=
  { timestamp := mkRat 102 100, cpu_id := 0, event_type := "syscall_entry_read",
    process_name := "app", pid := 1, tid := 1,
    event_data := [("fd", .int 3), ("count", .int 10)] }

/-- A `read` entry at t = 1 whose exit below carries an earlier timestamp
(cross-CPU interleaving without a global sort). -/
def lateReadEntry : KernelEvent :=
  { timestamp := 1, cpu_id := 0, event_type := "syscall_entry_read",
    process_name := "app", pid := 1, tid := 1,
    event_data := [("fd", .int 3)] }

/-- A `read` exit at t = 0, paired against `lateReadEntry`. -/
def earlyReadExit : KernelEvent :=
  { timestamp := 0, cpu_id := 1, event_type := "syscall_exit_read",
    process_name := "app", pid := 1, tid := 1,
    event_data := [("ret", .int 5)] }

/-- A `read` exit with no pending entry on its (tid, name). -/
def orphanReadExit : KernelEvent :=
  { timestamp := 2, cpu_id := 0, event_type := "syscall_exit_read",
    process_name := "app", pid := 1, tid := 1,
    event_data := [("ret", .int 5)] }

/-- A second `read` entry on the same tid before any exit, overwriting
the first pending entry. -/
def secondReadEntry : KernelEvent :=
  { timestamp := 3, cpu_id := 0, event_type := "syscall_entry_read",
    process_name := "app", pid := 1, tid := 1,
    event_data := [("fd", .int 4)] }

/-- C1 (code_bug evaluation): after seeding the snapshot interval
`(0.0, None, "/pre/file")` and observing a trace open of `/tmp/new` on the
same (pid 1, fd 3), the fd map holds both intervals, the query time 6 is
covered by the trace-observed interval, yet `_resolve_fd` returns the
snapshot name: the first-containing-interval scan lets the snapshot entry
(appended first, covering all times) shadow every later trace open,
contradicting the claim and `_resolve_fd`'s own documented resolution
order. -/
theorem c1_snapshot_shadows_trace_open :
    (pair_syscalls (load_initial_fd_state preSnapshot initFdState)
        [openNewEntry, openNewExit]).fd.fd_map =
      [((1, 3), [⟨0, Option.none, .str "/pre/file"⟩,
                 ⟨5, Option.none, .str "/tmp/new"⟩])] ∧
    resolve_fd (pair_syscalls (load_initial_fd_state preSnapshot initFdState)
        [openNewEntry, openNewExit]).fd.fd_map 1 3 6 =
      some (.str "/pre/file") := by
  constructor <;> decide

/-- C8: a `sched_switch` to tid 7 ("worker") on CPU 0 followed by a
context-less `read` entry on CPU 0 resolves the syscall's identity to
pid 7, tid 7 through the cpu_context and tid_context fallbacks. -/
theorem c8_cpu_fallback_resolves_identity :
    (parse_line_ctx
      (parse_line_ctx initParserCtx "sched_switch"
        [("cpu_id", .int 0), ("prev_comm", .str "swapper/0"),
         ("prev_tid", .int 0), ("next_comm", .str "worker"),
         ("next_tid", .int 7)]).1
      "syscall_entry_read"
      [("cpu_id", .int 0), ("fd", .int 3)]).2 = some (7, 7, "worker") := by
  decide

/-- C9: the derived output (events, entities, sequences, summary, state)
is a function of the snapshot and the input event list alone; the
`datetime.now()` readings of `parse` feed only the logged duration, so
two runs under any two clocks produce identical output. -/
theorem c9_pipeline_deterministic (c1 c2 c1' c2' : ℚ)
    (snapshot : List (FdKey × String)) (events : List KernelEvent) :
    (run_pipeline c1 c2 snapshot events).1 =
      (run_pipeline c1' c2' snapshot events).1 := rfl

/-- C3 (counterexample): from an input list whose exit carries an earlier
timestamp than its entry, the pairer produces a paired syscall violating
`end_time >= start_time`. -/
theorem c3_unsorted_input_violates_duration :
    (pair_syscalls initFdState [lateReadEntry, earlyReadExit]).pairs.all
      (fun p => decide (p.start_time ≤ p.end_time)) = false := by
  decide

/-- C4 (counterexample): an unmatched exit leaves the pairer state
entirely unchanged — in particular every counter of the builder state
keeps its initial value and nothing records the dropped exit; likewise an
overwriting second entry changes only the pending map, incrementing no
counter. -/
theorem c4_losses_not_counted :
    (pair_syscalls initFdState [orphanReadExit]) =
      { pending_entries := [], pairs := [], fd := initFdState } ∧
    (pair_syscalls initFdState [lateReadEntry, secondReadEntry]) =
      { pending_entries := [((1, "read"), secondReadEntry)], pairs := [],
        fd := initFdState } := by
  constructor <;> decide

/-- C5 (counterexample): in the stream open(/tmp/a) -> ret 3 ->
read(fd 3), the read's descriptor is resolvable to /tmp/a by the
pipeline's own temporal fd map at the read's timestamp, yet
`_extract_files` counts a single access for /tmp/a (the open only) and
its `fd_to_file` map stays empty, so the read increments nothing. -/
theorem c5_read_reference_not_counted :
    fileAccessCount (extract_files [openAEntry, openAExit, readFd3Entry]) "/tmp/a" = 1 ∧
    (extract_files [openAEntry, openAExit, readFd3Entry]).fd_to_file = [] ∧
    resolve_fd (pair_syscalls initFdState [openAEntry, openAExit, readFd3Entry]).fd.fd_map
        1 3 (mkRat 102 100) = some (.str "/tmp/a") := by
  refine ⟨by decide, by decide, by decide⟩

/-! ## Association-list lemmas (shared) -/

theorem assocGet_set_self {α β : Type} [DecidableEq α]
    (m : List (α × β)) (k : α) (v : β) :
    assocGet (assocSet m k v) k = some v := by
  induction m with
  | nil => simp [assocSet, assocGet]
  | cons hd tl ih =>
    by_cases h : k = hd.1
    · simp [assocSet, assocGet, h]
    · simp only [assocSet]
      rw [if_neg h]
      simp only [assocGet]
      rw [if_neg h]
      exact ih

theorem assocGet_set_ne {α β : Type} [DecidableEq α]
    (m : List (α × β)) (k k' : α) (v : β) (h : k' ≠ k) :
    assocGet (assocSet m k v) k' = assocGet m k' := by
  induction m with
  | nil => simp [assocSet, assocGet, h]
  | cons hd tl ih =>
    by_cases hk : k = hd.1
    · subst hk
      simp only [assocSet, if_pos rfl]
      simp only [assocGet]
      rw [if_neg h, if_neg h]
    · simp only [assocSet]
      rw [if_neg hk]
      by_cases hk' : k' = hd.1
      · simp [assocGet, hk']
      · simp only [assocGet]
        rw [if_neg hk', if_neg hk']
        exact ih

theorem assocGet_append {α β : Type} [DecidableEq α]
    (m l : List (α × β)) (k : α) :
    assocGet (m ++ l) k =
      match assocGet m k with
      | some v => some v
      | Option.none => assocGet l k := by
  induction m with
  | nil => simp [assocGet]
  | cons hd tl ih =>
    by_cases h : k = hd.1
    · simp [assocGet, h]
    · simp only [List.cons_append, assocGet]
      rw [if_neg h, if_neg h]
      exact ih

theorem assocGet_mem {α β : Type} [DecidableEq α]
    (m : List (α × β)) (k : α) (v : β)
    (h : assocGet m k = some v) : (k, v) ∈ m := by
  induction m with
  | nil => simp [assocGet] at h
  | cons hd tl ih =>
    by_cases hk : k = hd.1
    · simp only [assocGet, if_pos hk] at h
      have hv : v = hd.2 := by
        injection h with h'
        exact h'.symm
      have hkv : (k, v) = hd := by
        cases hd
        simp only [Prod.mk.injEq]
        exact ⟨hk, hv⟩
      rw [hkv]
      exact List.mem_cons_self _ _
    · simp only [assocGet] at h
      rw [if_neg hk] at h
      exact List.mem_cons_of_mem _ (ih h)

theorem mem_assocRemove_sub {α β : Type} [DecidableEq α]
    (m : List (α × β)) (k : α) (kv : α × β)
    (h : kv ∈ assocRemove m k) : kv ∈ m := by
  induction m with
  | nil => simpa [assocRemove] using h
  | cons hd tl ih =>
    by_cases hk : k = hd.1
    · simp only [assocRemove, if_pos hk] at h
      exact List.mem_cons_of_mem _ h
    · simp only [assocRemove] at h
      rw [if_neg hk] at h
      rcases List.mem_cons.mp h with h1 | h1
      · exact h1 ▸ List.mem_cons_self _ _
      · exact List.mem_cons_of_mem _ (ih h1)

theorem mem_assocSet_sub {α β : Type} [DecidableEq α]
    (m : List (α × β)) (k : α) (v : β) (kv : α × β)
    (h : kv ∈ assocSet m k v) : kv = (k, v) ∨ kv ∈ m := by
  induction m with
  | nil => simpa [assocSet] using h
  | cons hd tl ih =>
    by_cases hk : k = hd.1
    · simp only [assocSet, if_pos hk] at h
      rcases List.mem_cons.mp h with h1 | h1
      · exact Or.inl h1
      · exact Or.inr (List.mem_cons_of_mem _ h1)
    · simp only [assocSet] at h
      rw [if_neg hk] at h
      rcases List.mem_cons.mp h with h1 | h1
      · exact Or.inr (h1 ▸ List.mem_cons_self _ _)
      · rcases ih h1 with h2 | h2
        · exact Or.inl h2
        · exact Or.inr (List.mem_cons_of_mem _ h2)

theorem fdAppend_get_self (m : FdMap) (k : FdKey) (iv : FdInterval) :
    assocGet (fdAppend m k iv) k = some ((assocGet m k).getD [] ++ [iv]) := by
  unfold fdAppend
  cases h : assocGet m k with
  | none =>
    rw [assocGet_append]
    simp [h, assocGet]
  | some ivs =>
    simp [assocGet_set_self, h]

theorem fdAppend_get_ne (m : FdMap) (k k' : FdKey) (iv : FdInterval)
    (h : k' ≠ k) :
    assocGet (fdAppend m k iv) k' = assocGet m k' := by
  unfold fdAppend
  cases hm : assocGet m k with
  | none =>
    rw [assocGet_append]
    cases hk' : assocGet m k' with
    | none => simp [assocGet, h]
    | some v => simp
  | some ivs => exact assocGet_set_ne _ _ _ _ h

/-! ## Branch lemmas for _update_fd_mapping (shared) -/

theorem update_fd_mapping_open (st : FdState) (p : PairedSyscall) (fd : Int)
    (v : Value)
    (hname : p.syscall_name ∈ (["open", "openat", "openat2"] : List String))
    (hret : p.return_value = some (.int fd)) (hfd : 0 ≤ fd)
    (hfile : assocGet p.entry_data "filename" = some v)
    (hv : truthy v = true) :
    update_fd_mapping st p =
      { st with
        fd_map := fdAppend st.fd_map (p.pid, fd)
          ⟨p.start_time, Option.none, cleanName v⟩,
        fd_mappings_created := st.fd_mappings_created + 1 } := by
  unfold update_fd_mapping
  rw [if_pos hname, hret, hfile]
  simp [hfd, hv]

theorem update_fd_mapping_close (st : FdState) (p : PairedSyscall) (fd : Int)
    (ivs : List FdInterval)
    (hname : p.syscall_name = "close")
    (hfd : assocGet p.entry_data "fd" = some (.int fd))
    (hret : p.return_value = some (.int 0))
    (hivs : assocGet st.fd_map (p.pid, fd) = some ivs)
    (hopen : ivs.any (fun j => j.stop.isNone) = true) :
    update_fd_mapping st p =
      { st with
        fd_map := assocSet st.fd_map (p.pid, fd)
          (close_last_open p.end_time ivs),
        fd_mappings_cleaned := st.fd_mappings_cleaned + 1 } := by
  unfold update_fd_mapping
  rw [if_neg (by simp [hname]), if_neg (by simp [hname]), if_pos hname,
      hfd, hret]
  simp [pyEqZero, hivs, hopen]

/-- C10: a successful `open`/`openat`/`openat2` pairing (fd >= 0) whose
entry fields carry no `filename` leaves the fd-tracking state — in
particular every `(pid, fd)` interval list — unchanged, so any later
resolution behaves exactly as if the open had never been seen (and, for
keys without a covering interval, still yields no name, which the caller
renders as the `fd:<N>` placeholder). -/
theorem c10_nameless_open_creates_no_interval (st : FdState)
    (pair : PairedSyscall) (fd : Int)
    (hname : pair.syscall_name ∈ (["open", "openat", "openat2"] : List String))
    (hret : pair.return_value = some (.int fd)) (hfd : 0 ≤ fd)
    (hfile : assocGet pair.entry_data "filename" = Option.none) :
    update_fd_mapping st pair = st ∧
    (∀ pid fdn t, resolve_fd (update_fd_mapping st pair).fd_map pid fdn t =
      resolve_fd st.fd_map pid fdn t) := by
  have h1 : update_fd_mapping st pair = st := by
    unfold update_fd_mapping
    rw [if_pos hname, hret, hfile]
    simp [hfd]
  exact ⟨h1, fun pid fdn t => by rw [h1]⟩

/-- A successful nameless `openat` pairing: entry carries only flags. -/
def openNoNamePair : PairedSyscall :=
  { syscall_name := "openat", tid := 1, pid := 1, process_name := "app",
    cpu_id := 0, start_time := 2, end_time := 3, duration := 1,
    entry_data := [("flags", .int 0)], exit_data := [("ret", .int 5)],
    return_value := some (.int 5) }

/-- Witness for C10 at a concrete nameless open. -/
theorem c10_witness :
    update_fd_mapping initFdState openNoNamePair = initFdState ∧
    resolve_fd (update_fd_mapping initFdState openNoNamePair).fd_map 1 5 2 =
      resolve_fd initFdState.fd_map 1 5 2 :=
  ⟨(c10_nameless_open_creates_no_interval initFdState openNoNamePair 5
      (by decide) rfl (by decide) rfl).1,
   (c10_nameless_open_creates_no_interval initFdState openNoNamePair 5
      (by decide) rfl (by decide) rfl).2 1 5 2⟩

/-- C2: for an interval list built from a successful open (name, t1), a
successful close (t2) and a successful re-open (name2, t3) of the same
(pid, fd) with t1 < t2 < t3, `_resolve_fd` returns `name` on
t1 <= t <= t2, `name2` for t >= t3, and nothing (the placeholder case of
the caller) strictly between t2 and t3. -/
theorem c2_open_close_reopen_resolution
    (st0 : FdState) (p1 pc p2 : PairedSyscall) (pid fd : Int)
    (name name2 : String) (t1 t2 t3 : ℚ)
    (hkey0 : assocGet st0.fd_map (pid, fd) = Option.none)
    (h1name : p1.syscall_name ∈ (["open", "openat", "openat2"] : List String))
    (h1pid : p1.pid = pid) (h1t : p1.start_time = t1)
    (h1ret : p1.return_value = some (.int fd)) (hfd : 0 ≤ fd)
    (h1file : assocGet p1.entry_data "filename" = some (.str name))
    (h1nm : name ≠ "") (h1clean : pyStrip name = name)
    (hcname : pc.syscall_name = "close") (hcpid : pc.pid = pid)
    (hcfd : assocGet pc.entry_data "fd" = some (.int fd))
    (hcret : pc.return_value = some (.int 0)) (hct : pc.end_time = t2)
    (h2name : p2.syscall_name ∈ (["open", "openat", "openat2"] : List String))
    (h2pid : p2.pid = pid) (h2t : p2.start_time = t3)
    (h2ret : p2.return_value = some (.int fd))
    (h2file : assocGet p2.entry_data "filename" = some (.str name2))
    (h2nm : name2 ≠ "") (h2clean : pyStrip name2 = name2)
    (ht12 : t1 < t2) (ht23 : t2 < t3) (t : ℚ) :
    (t1 ≤ t → t ≤ t2 →
      resolve_fd (update_fd_mapping (update_fd_mapping
        (update_fd_mapping st0 p1) pc) p2).fd_map pid fd t =
        some (.str name)) ∧
    (t3 ≤ t →
      resolve_fd (update_fd_mapping (update_fd_mapping
        (update_fd_mapping st0 p1) pc) p2).fd_map pid fd t =
        some (.str name2)) ∧
    (t2 < t → t < t3 →
      resolve_fd (update_fd_mapping (update_fd_mapping
        (update_fd_mapping st0 p1) pc) p2).fd_map pid fd t =
        Option.none) := by
  have e1 := update_fd_mapping_open st0 p1 fd (.str name) h1name h1ret hfd
    h1file (by simp [truthy, h1nm])
  have g1 : assocGet (update_fd_mapping st0 p1).fd_map (pid, fd) =
      some [⟨t1, Option.none, .str name⟩] := by
    rw [e1]
    simp only
    rw [h1pid, h1t, fdAppend_get_self, hkey0]
    simp [cleanName, h1clean]
  have e2 := update_fd_mapping_close (update_fd_mapping st0 p1) pc fd
    [⟨t1, Option.none, .str name⟩] hcname hcfd hcret
    (by rw [hcpid]; exact g1) (by simp)
  have g2 : assocGet (update_fd_mapping (update_fd_mapping st0 p1) pc).fd_map
      (pid, fd) = some [⟨t1, some t2, .str name⟩] := by
    rw [e2]
    simp only
    rw [hcpid, assocGet_set_self, hct]
    simp [close_last_open]
  have e3 := update_fd_mapping_open (update_fd_mapping
    (update_fd_mapping st0 p1) pc) p2 fd (.str name2) h2name h2ret hfd
    h2file (by simp [truthy, h2nm])
  have g3 : assocGet (update_fd_mapping (update_fd_mapping
      (update_fd_mapping st0 p1) pc) p2).fd_map (pid, fd) =
      some [⟨t1, some t2, .str name⟩, ⟨t3, Option.none, .str name2⟩] := by
    rw [e3]
    simp only
    rw [h2pid, h2t, fdAppend_get_self, g2]
    simp [cleanName, h2clean]
  refine ⟨fun hta htb => ?_, fun htc => ?_, fun htd hte => ?_⟩
  · rw [resolve_fd, g3]
    simp [scan_intervals, hta, htb]
  · have h1t' : t1 ≤ t := by linarith
    have h2t' : ¬ (t ≤ t2) := by linarith
    rw [resolve_fd, g3]
    simp [scan_intervals, h1t', h2t', htc]
  · have h1t' : t1 ≤ t := by linarith
    have h2t' : ¬ (t ≤ t2) := by linarith
    have h3t' : ¬ (t3 ≤ t) := by linarith
    rw [resolve_fd, g3]
    simp [scan_intervals, h1t', h2t', h3t']

/-- Concrete open pairing of `/tmp/x` on (pid 1, fd 3) at t = 1. -/
def c2p1 : PairedSyscall :=
  { syscall_name := "openat", tid := 1, pid := 1, process_name := "app",
    cpu_id := 0, start_time := 1, end_time := 1, duration := 0,
    entry_data := [("filename", .str "/tmp/x")], exit_data := [("ret", .int 3)],
    return_value := some (.int 3) }

/-- Concrete successful close of fd 3 at t = 2. -/
def c2pc : PairedSyscall :=
  { syscall_name := "close", tid := 1, pid := 1, process_name := "app",
    cpu_id := 0, start_time := 2, end_time := 2, duration := 0,
    entry_data := [("fd", .int 3)], exit_data := [("ret", .int 0)],
    return_value := some (.int 0) }

/-- Concrete re-open of `/tmp/y` on the reused fd 3 at t = 3. -/
def c2p2 : PairedSyscall :=
  { syscall_name := "openat", tid := 1, pid := 1, process_name := "app",
    cpu_id := 0, start_time := 3, end_time := 3, duration := 0,
    entry_data := [("filename", .str "/tmp/y")], exit_data := [("ret", .int 3)],
    return_value := some (.int 3) }

/-- Witness for C2 on the concrete open/close/re-open history. -/
theorem c2_witness :
    (resolve_fd (update_fd_mapping (update_fd_mapping
        (update_fd_mapping initFdState c2p1) c2pc) c2p2).fd_map 1 3
        (mkRat 3 2) = some (.str "/tmp/x")) ∧
    (resolve_fd (update_fd_mapping (update_fd_mapping
        (update_fd_mapping initFdState c2p1) c2pc) c2p2).fd_map 1 3 4 =
        some (.str "/tmp/y")) ∧
    (resolve_fd (update_fd_mapping (update_fd_mapping
        (update_fd_mapping initFdState c2p1) c2pc) c2p2).fd_map 1 3
        (mkRat 5 2) = Option.none) := by
  have H := c2_open_close_reopen_resolution initFdState c2p1 c2pc c2p2 1 3
    "/tmp/x" "/tmp/y" 1 2 3
    (by decide) (by decide) (by decide) (by decide) (by decide) (by decide)
    (by decide) (by decide) (by decide) (by decide) (by decide) (by decide)
    (by decide) (by decide) (by decide) (by decide) (by decide) (by decide)
    (by decide) (by decide) (by decide) (by decide) (by decide)
  exact ⟨(H (mkRat 3 2)).1 (by decide) (by decide),
         (H 4).2.1 (by decide),
         (H (mkRat 5 2)).2.2 (by decide) (by decide)⟩

/-! ## Lemmas for the sequence grouper (shared) -/

theorem create_sequence_count (st : BuilderState) (p0 : PairedSyscall)
    (rest : List PairedSyscall) (op : String) :
    (create_sequence_from_pairs st p0 rest op).1.count = rest.length + 1 := rfl

theorem pySortInsert_length {α : Type} (lt : α → α → Bool) (x : α)
    (l : List α) : (pySortInsert lt x l).length = l.length + 1 := by
  induction l with
  | nil => rfl
  | cons y ys ih =>
    simp only [pySortInsert]
    split
    · simp
    · simp [ih]

theorem pySort_length {α : Type} (lt : α → α → Bool) (l : List α) :
    (pySort lt l).length = l.length := by
  suffices h : ∀ acc : List α,
      (l.foldl (fun acc x => pySortInsert lt x acc) acc).length =
        acc.length + l.length by
    simpa using h []
  induction l with
  | nil => simp
  | cons y ys ih =>
    intro acc
    simp only [List.foldl_cons]
    rw [ih (pySortInsert lt y acc), pySortInsert_length]
    simp only [List.length_cons]
    omega

/-- Total number of pairs held by a grouping dictionary. -/
def groupsTotal (groups : List (String × List PairedSyscall)) : Nat :=
  (groups.map (fun g => g.2.length)).sum

theorem groupsTotal_set (groups : List (String × List PairedSyscall))
    (k : String) (ps : List PairedSyscall) (p : PairedSyscall)
    (h : assocGet groups k = some ps) :
    groupsTotal (assocSet groups k (ps ++ [p])) = groupsTotal groups + 1 := by
  induction groups with
  | nil => simp [assocGet] at h
  | cons hd tl ih =>
    by_cases hk : k = hd.1
    · simp only [assocGet, if_pos hk] at h
      injection h with h
      simp only [assocSet, if_pos hk, groupsTotal, List.map_cons, List.sum_cons]
      rw [← h]
      simp
      omega
    · simp only [assocGet] at h
      rw [if_neg hk] at h
      simp only [assocSet]
      rw [if_neg hk]
      simp only [groupsTotal, List.map_cons, List.sum_cons] at ih ⊢
      rw [ih h]
      omega

theorem build_groups_total (rule : GroupRule) (l : List PairedSyscall) :
    groupsTotal (build_groups rule l) = l.length := by
  suffices h : ∀ acc : List (String × List PairedSyscall),
      groupsTotal (l.foldl
        (fun groups p =>
          let k := group_key rule p
          match assocGet groups k with
          | some ps => assocSet groups k (ps ++ [p])
          | Option.none => groups ++ [(k, [p])]) acc) =
        groupsTotal acc + l.length by
    simpa [build_groups, groupsTotal] using h []
  induction l with
  | nil => simp
  | cons p ps ih =>
    intro acc
    simp only [List.foldl_cons, List.length_cons]
    rw [ih]
    cases h : assocGet acc (group_key rule p) with
    | none =>
      simp only [h]
      simp [groupsTotal]
      omega
    | some ps' =>
      simp only [h]
      rw [groupsTotal_set acc _ ps' p h]
      omega

/-- Folds that append sequences one batch at a time: generic length and
count bookkeeping. -/
theorem fold_seq_general {γ : Type}
    (G : (List EventSequence × BuilderState) → γ →
      (List EventSequence × BuilderState))
    (len : γ → Nat)
    (hG : ∀ acc g, (G acc g).1.length = acc.1.length + len g ∧
      ∀ s ∈ (G acc g).1, s ∈ acc.1 ∨ s.count = 1) :
    ∀ (l : List γ) (acc : List EventSequence × BuilderState),
      (l.foldl G acc).1.length = acc.1.length + (l.map len).sum ∧
      ∀ s ∈ (l.foldl G acc).1, s ∈ acc.1 ∨ s.count = 1 := by
  intro l
  induction l with
  | nil =>
    intro acc
    constructor
    · simp
    · intro s hs
      exact Or.inl hs
  | cons g gs ih =>
    intro acc
    simp only [List.foldl_cons, List.map_cons, List.sum_cons]
    constructor
    · rw [(ih (G acc g)).1, (hG acc g).1]
      omega
    · intro s hs
      rcases (ih (G acc g)).2 s hs with h1 | h1
      · rcases (hG acc g).2 s h1 with h2 | h2
        · exact Or.inl h2
        · exact Or.inr h2
      · exact Or.inr h1

/-- C7: an `immediate` rule produces one `EventSequence` per matching
paired syscall — the sequence list is as long as the matching-pair list —
and every produced sequence has `count = 1`, whatever the event timing. -/
theorem c7_immediate_one_sequence_per_syscall (st : BuilderState)
    (syscall_pairs : List PairedSyscall) (operation : String)
    (rule : GroupRule) (himm : rule.immediate = true) :
    (group_by_rule st syscall_pairs operation rule).1.length =
      (syscall_pairs.filter
        (fun p => rule.syscalls.contains p.syscall_name)).length ∧
    ∀ s ∈ (group_by_rule st syscall_pairs operation rule).1, s.count = 1 := by
  by_cases hM : (syscall_pairs.filter
      (fun p => rule.syscalls.contains p.syscall_name)).isEmpty = true
  · have hz : group_by_rule st syscall_pairs operation rule = ([], st) := by
      unfold group_by_rule
      simp only [hM, if_true]
    rw [hz]
    have hnil := List.isEmpty_iff.mp hM
    constructor
    · rw [hnil]
      rfl
    · simp
  · have hz : group_by_rule st syscall_pairs operation rule =
        (build_groups rule (syscall_pairs.filter
          (fun p => rule.syscalls.contains p.syscall_name))).foldl
          (fun acc g =>
            (pySort (fun a b => a.start_time < b.start_time) g.2).foldl
              (fun acc p =>
                let r := create_sequence_from_pairs acc.2 p [] operation
                (acc.1 ++ [r.1], r.2)) acc)
          ([], st) := by
      unfold group_by_rule
      simp only [hM, if_false, himm, if_true, Bool.false_eq_true]
    rw [hz]
    have hGinner : ∀ (acc : List EventSequence × BuilderState)
        (p : PairedSyscall),
        ((fun (acc : List EventSequence × BuilderState) p =>
          let r := create_sequence_from_pairs acc.2 p [] operation
          (acc.1 ++ [r.1], r.2)) acc p).1.length = acc.1.length + 1 ∧
        ∀ s ∈ ((fun (acc : List EventSequence × BuilderState) p =>
          let r := create_sequence_from_pairs acc.2 p [] operation
          (acc.1 ++ [r.1], r.2)) acc p).1, s ∈ acc.1 ∨ s.count = 1 := by
      intro acc p
      constructor
      · simp
      · intro s hs
        rcases List.mem_append.mp hs with h1 | h1
        · exact Or.inl h1
        · right
          rw [List.mem_singleton.mp h1]
          exact create_sequence_count _ _ _ _
    have hGouter : ∀ (acc : List EventSequence × BuilderState)
        (g : String × List PairedSyscall),
        ((fun (acc : List EventSequence × BuilderState)
            (g : String × List PairedSyscall) =>
          (pySort (fun a b => a.start_time < b.start_time) g.2).foldl
            (fun acc p =>
              let r := create_sequence_from_pairs acc.2 p [] operation
              (acc.1 ++ [r.1], r.2)) acc) acc g).1.length =
          acc.1.length + g.2.length ∧
        ∀ s ∈ ((fun (acc : List EventSequence × BuilderState)
            (g : String × List PairedSyscall) =>
          (pySort (fun a b => a.start_time < b.start_time) g.2).foldl
            (fun acc p =>
              let r := create_sequence_from_pairs acc.2 p [] operation
              (acc.1 ++ [r.1], r.2)) acc) acc g).1,
          s ∈ acc.1 ∨ s.count = 1 := by
      intro acc g
      have h := fold_seq_general _ (fun _ => 1) hGinner
        (pySort (fun a b => a.start_time < b.start_time) g.2) acc
      constructor
      · rw [h.1]
        simp [pySort_length]
      · exact h.2
    have h := fold_seq_general _ (fun g => g.2.length) hGouter
      (build_groups rule (syscall_pairs.filter
        (fun p => rule.syscalls.contains p.syscall_name))) ([], st)
    constructor
    · rw [h.1]
      simp only [List.length_nil, Nat.zero_add]
      exact build_groups_total rule _
    · intro s hs
      rcases h.2 s hs with h1 | h1
      · simp at h1
      · exact h1

/-- A second successful close pairing at t = 4 (distinct from `c2pc`). -/
def c7close2 : PairedSyscall :=
  { syscall_name := "close", tid := 1, pid := 1, process_name := "app",
    cpu_id := 0, start_time := 4, end_time := 4, duration := 0,
    entry_data := [("fd", .int 7)], exit_data := [("ret", .int 0)],
    return_value := some (.int 0) }

/-- Witness for C7: the built-in immediate `close` rule on two close
pairings. -/
theorem c7_witness :
    (group_by_rule ⟨0, [], 0⟩ [c2pc, c7close2] "close"
        ⟨["close"], ["tid"], 10, true⟩).1.length =
      ([c2pc, c7close2].filter
        (fun p => (["close"] : List String).contains p.syscall_name)).length ∧
    ∀ s ∈ (group_by_rule ⟨0, [], 0⟩ [c2pc, c7close2] "close"
        ⟨["close"], ["tid"], 10, true⟩).1, s.count = 1 :=
  c7_immediate_one_sequence_per_syscall ⟨0, [], 0⟩ [c2pc, c7close2] "close"
    ⟨["close"], ["tid"], 10, true⟩ rfl

/-- C6: for a non-immediate rule with threshold G ms and two matching
same-key pairs in start order, a gap (second start minus first end) of
exactly G/1000 s batches both into one `EventSequence` (count 2), while
any strictly larger gap splits them into two sequences of count 1. -/
theorem c6_gap_boundary (st : BuilderState) (operation : String)
    (rule : GroupRule) (p1 p2 : PairedSyscall)
    (himm : rule.immediate = false)
    (h1 : rule.syscalls.contains p1.syscall_name = true)
    (h2 : rule.syscalls.contains p2.syscall_name = true)
    (hkey : group_key rule p1 = group_key rule p2)
    (horder : p1.start_time ≤ p2.start_time) :
    (p2.start_time - p1.end_time = rule.time_gap_ms / 1000 →
      (group_by_rule st [p1, p2] operation rule).1.map
        (fun s => s.count) = [2]) ∧
    (p2.start_time - p1.end_time > rule.time_gap_ms / 1000 →
      (group_by_rule st [p1, p2] operation rule).1.map
        (fun s => s.count) = [1, 1]) := by
  have h1' : p1.syscall_name ∈ rule.syscalls := by simpa using h1
  have h2' : p2.syscall_name ∈ rule.syscalls := by simpa using h2
  have hfil : ([p1, p2].filter
      (fun p => rule.syscalls.contains p.syscall_name)) = [p1, p2] := by
    simp [List.filter, h1', h2']
  have hb : build_groups rule [p1, p2] = [(group_key rule p1, [p1, p2])] := by
    simp [build_groups, assocGet, assocSet, ← hkey]
  have hsorted : pySort
      (fun a b => decide (a.start_time < b.start_time)) [p1, p2] =
      [p1, p2] := by
    simp [pySort, pySortInsert, not_lt.mpr horder]
  have hthr : qdivNat rule.time_gap_ms 1000 = rule.time_gap_ms / 1000 :=
    qdivNat_eq _ _ (by norm_num)
  have hz : ∀ b : Bool,
      (qsub p2.start_time p1.end_time ≤ qdivNat rule.time_gap_ms 1000) =
        (p2.start_time - p1.end_time ≤ rule.time_gap_ms / 1000) := by
    intro b
    rw [qsub_eq, hthr]
  constructor
  · intro hgap
    have hle : qsub p2.start_time p1.end_time ≤
        qdivNat rule.time_gap_ms 1000 := by
      rw [qsub_eq, hthr, hgap]
    unfold group_by_rule
    rw [hfil]
    simp only [List.isEmpty_cons, if_false, Bool.false_eq_true, hb, himm]
    simp only [List.foldl_cons, List.foldl_nil, hsorted]
    simp only [batch_go, List.getLastD, hle, if_pos, if_true]
    simp [batch_go, create_sequence_count]
  · intro hgap
    have hgt : ¬ (qsub p2.start_time p1.end_time ≤
        qdivNat rule.time_gap_ms 1000) := by
      rw [qsub_eq, hthr]
      exact not_le.mpr hgap
    unfold group_by_rule
    rw [hfil]
    simp only [List.isEmpty_cons, if_false, Bool.false_eq_true, hb, himm]
    simp only [List.foldl_cons, List.foldl_nil, hsorted]
    simp [batch_go, hgt, create_sequence_count]

/-- A schema-style non-immediate rule: reads grouped per tid with a
1000 ms gap. -/
def c6rule : GroupRule := ⟨["read"], ["tid"], 1000, false⟩

/-- First read pairing: tid 1, runs over [1, 1]. -/
def c6p1 : PairedSyscall :=
  { syscall_name := "read", tid := 1, pid := 1, process_name := "app",
    cpu_id := 0, start_time := 1, end_time := 1, duration := 0,
    entry_data := [("fd", .int 3)], exit_data := [("ret", .int 8)],
    return_value := some (.int 8) }

/-- Second read pairing starting exactly one threshold later (gap = 1 s). -/
def c6p2a : PairedSyscall :=
  { syscall_name := "read", tid := 1, pid := 1, process_name := "app",
    cpu_id := 0, start_time := 2, end_time := 2, duration := 0,
    entry_data := [("fd", .int 3)], exit_data := [("ret", .int 8)],
    return_value := some (.int 8) }

/-- Second read pairing starting past the threshold (gap = 2 s). -/
def c6p2b : PairedSyscall :=
  { syscall_name := "read", tid := 1, pid := 1, process_name := "app",
    cpu_id := 0, start_time := 3, end_time := 3, duration := 0,
    entry_data := [("fd", .int 3)], exit_data := [("ret", .int 8)],
    return_value := some (.int 8) }

/-- Witness for C6 at the exact-gap and past-gap boundary inputs. -/
theorem c6_witness :
    (group_by_rule ⟨0, [], 0⟩ [c6p1, c6p2a] "read" c6rule).1.map
      (fun s => s.count) = [2] ∧
    (group_by_rule ⟨0, [], 0⟩ [c6p1, c6p2b] "read" c6rule).1.map
      (fun s => s.count) = [1, 1] :=
  ⟨(c6_gap_boundary ⟨0, [], 0⟩ "read" c6rule c6p1 c6p2a rfl (by decide)
      (by decide) (by decide) (by decide)).1 (by norm_num [c6p1, c6p2a, c6rule]),
   (c6_gap_boundary ⟨0, [], 0⟩ "read" c6rule c6p1 c6p2b rfl (by decide)
      (by decide) (by decide) (by decide)).2 (by norm_num [c6p1, c6p2b, c6rule])⟩

/-! ## C5 amended: access counts come from open entries only -/

/-- The open-entry events whose (cleaned) filename is `p` — exactly the
events on which `_extract_files` bumps `p`'s access counter. -/
def is_counted_open_entry (p : String) (e : KernelEvent) : Bool :=
  (strIn "syscall_entry_open" e.event_type ||
   strIn "syscall_entry_openat" e.event_type) &&
  (match filenameOf e with
   | .str s => decide (s ≠ "") && decide (pyStrip s = p)
   | _ => false)

theorem extract_files_step_spec (files : List (String × FileEnt))
    (e : KernelEvent) (p : String) :
    (extract_files_step ⟨files, []⟩ e).fd_to_file = [] ∧
    fileAccessCount (extract_files_step ⟨files, []⟩ e) p =
      fileAccessCount ⟨files, []⟩ p +
        (if is_counted_open_entry p e = true then 1 else 0) := by
  by_cases hopen : (strIn "syscall_entry_open" e.event_type = true ∨
      strIn "syscall_entry_openat" e.event_type = true)
  · unfold extract_files_step
    rw [if_pos hopen]
    cases hf : filenameOf e with
    | str s =>
      dsimp only
      by_cases hs : s ≠ ""
      · rw [if_pos hs]
        have hic : is_counted_open_entry p e =
            decide (pyStrip s = p) := by
          unfold is_counted_open_entry
          rw [hf]
          have : (strIn "syscall_entry_open" e.event_type ||
              strIn "syscall_entry_openat" e.event_type) = true := by
            rcases hopen with h | h <;> simp [h]
          simp [this, hs]
        cases hg0 : assocGet files (pyStrip s) with
        | some f0 =>
          simp only [hg0]
          constructor
          · trivial
          · rw [hic]
            by_cases hp : pyStrip s = p
            · subst hp
              simp [fileAccessCount, assocGet_set_self, hg0]
            · simp only [fileAccessCount, hg0]
              rw [assocGet_set_ne _ _ _ _ (fun h => hp h.symm)]
              simp [hp]
        | none =>
          simp only [hg0]
          have happ : assocGet (files ++ [(pyStrip s,
              { path := pyStrip s, file_type := "file",
                first_access := some e.timestamp,
                last_access := Option.none, access_count := 0 })])
              (pyStrip s) = some
              { path := pyStrip s, file_type := "file",
                first_access := some e.timestamp,
                last_access := Option.none, access_count := 0 } := by
            rw [assocGet_append, hg0]
            simp [assocGet]
          rw [happ]
          constructor
          · trivial
          · rw [hic]
            by_cases hp : pyStrip s = p
            · subst hp
              simp [fileAccessCount, assocGet_set_self, hg0]
            · have hp' : ¬ (p = pyStrip s) := fun h => hp h.symm
              simp only [fileAccessCount]
              rw [assocGet_set_ne _ _ _ _ (fun h => hp h.symm)]
              rw [assocGet_append]
              cases hq : assocGet files p <;>
                simp [hq, assocGet, hp', hp]
      · rw [if_neg hs]
        have hic : is_counted_open_entry p e = false := by
          unfold is_counted_open_entry
          rw [hf]
          simp at hs
          simp [hs]
        simp [hic]
    | int n =>
      have hic : is_counted_open_entry p e = false := by
        unfold is_counted_open_entry
        rw [hf]
        simp
      simp [hic]
    | rat q =>
      have hic : is_counted_open_entry p e = false := by
        unfold is_counted_open_entry
        rw [hf]
        simp
      simp [hic]
    | none =>
      have hic : is_counted_open_entry p e = false := by
        unfold is_counted_open_entry
        rw [hf]
        simp
      simp [hic]
  · have hic : is_counted_open_entry p e = false := by
      unfold is_counted_open_entry
      have h1 : strIn "syscall_entry_open" e.event_type = false := by
        cases hx : strIn "syscall_entry_open" e.event_type
        · rfl
        · exact absurd (Or.inl hx) hopen
      have h2 : strIn "syscall_entry_openat" e.event_type = false := by
        cases hx : strIn "syscall_entry_openat" e.event_type
        · rfl
        · exact absurd (Or.inr hx) hopen
      simp [h1, h2]
    rw [hic]
    unfold extract_files_step
    rw [if_neg hopen]
    by_cases hexit : (strIn "syscall_exit_open" e.event_type = true ∨
        strIn "syscall_exit_openat" e.event_type = true)
    · rw [if_pos hexit]
      simp
    · rw [if_neg hexit]
      by_cases hrw : ((["syscall_entry_read", "syscall_entry_write",
          "syscall_entry_pread", "syscall_entry_pwrite"] :
          List String).any (fun sc => strIn sc e.event_type)) = true
      · rw [if_pos hrw]
        cases hfd : assocGet e.event_data "fd" with
        | some v => cases v <;> simp [assocGet]
        | none => simp
      · rw [if_neg hrw]
        simp

/-- C5 (amended): over any event stream, `_extract_files` leaves its
`(pid, fd) -> file` map empty (the exit-open branch is a `pass`, so
read/write references can never bump a counter), and every File's access
count equals the number of open/openat entry events carrying its cleaned,
non-empty string filename. -/
theorem c5_access_counts_only_opens (events : List KernelEvent)
    (p : String) :
    (extract_files events).fd_to_file = [] ∧
    fileAccessCount (extract_files events) p =
      (events.filter (is_counted_open_entry p)).length := by
  suffices h : ∀ files : List (String × FileEnt),
      (events.foldl extract_files_step ⟨files, []⟩).fd_to_file = [] ∧
      fileAccessCount (events.foldl extract_files_step ⟨files, []⟩) p =
        fileAccessCount ⟨files, []⟩ p +
          (events.filter (is_counted_open_entry p)).length by
    have := h []
    unfold extract_files
    constructor
    · exact this.1
    · rw [this.2]
      simp [fileAccessCount, assocGet]
  induction events with
  | nil =>
    intro files
    simp
  | cons e es ih =>
    intro files
    simp only [List.foldl_cons]
    have hstep := extract_files_step_spec files e p
    obtain ⟨files', hf'⟩ : ∃ files',
        extract_files_step ⟨files, []⟩ e = ⟨files', []⟩ := by
      refine ⟨(extract_files_step ⟨files, []⟩ e).files, ?_⟩
      have := hstep.1
      cases hx : extract_files_step ⟨files, []⟩ e
      simp_all
    rw [hf']
    constructor
    · exact (ih files').1
    · rw [(ih files').2]
      rw [← hf', hstep.2]
      by_cases hc : is_counted_open_entry p e = true
      · simp [List.filter, hc]
        omega
      · simp only [Bool.not_eq_true] at hc
        simp [List.filter, hc]

/-- C4 (amended): an exit with no pending entry for its (tid, name) leaves
the pairer state — pairs, pending map, fd map and every counter —
completely unchanged; an entry event (in particular a second entry
overwriting a still-pending one) only replaces the pending slot, leaving
pairs, fd map and all counters untouched. Both lossy paths proceed
without error and without incrementing any counter. -/
theorem c4_lossy_paths_uncounted (st : PairerState) (e : KernelEvent) :
    (strIn "syscall_entry" e.event_type = false →
     strIn "syscall_exit" e.event_type = true →
     assocGet st.pending_entries
       (e.tid, pyReplace e.event_type "syscall_exit_" "") = Option.none →
     pair_step st e = st) ∧
    (strIn "syscall_entry" e.event_type = true →
     pair_step st e =
       { st with pending_entries := assocSet st.pending_entries (e.tid, pyReplace e.event_type "syscall_entry_" "") e }) := by
  constructor
  · intro h1 h2 h3
    unfold pair_step
    simp [h1, h2, h3]
  · intro h1
    unfold pair_step
    simp [h1]

/-- The pairer state holding one pending read entry for tid 1. -/
def c4pending : PairerState :=
  { pending_entries := [((1, "read"), lateReadEntry)], pairs := [],
    fd := initFdState }

/-- Witness for C4: the orphan exit and the overwriting second entry from
the counterexample inputs, via the amended theorem. -/
theorem c4_witness :
    pair_step { pending_entries := [], pairs := [], fd := initFdState }
        orphanReadExit =
      { pending_entries := [], pairs := [], fd := initFdState } ∧
    pair_step c4pending secondReadEntry =
      { pending_entries := [((1, "read"), secondReadEntry)],
        pairs := [], fd := initFdState } :=
  ⟨(c4_lossy_paths_uncounted
      { pending_entries := [], pairs := [], fd := initFdState }
      orphanReadExit).1 (by decide) (by decide) (by decide),
   (c4_lossy_paths_uncounted c4pending secondReadEntry).2 (by decide)⟩

/-! ## C3 amended: provenance and ordering of paired syscalls -/

/-- Events the pairer's first branch treats as syscall entries. -/
def isEntryEvent (e : KernelEvent) : Bool := strIn "syscall_entry" e.event_type

/-- Events the pairer's elif branch treats as syscall exits. -/
def isExitEvent (e : KernelEvent) : Bool :=
  !(strIn "syscall_entry" e.event_type) && strIn "syscall_exit" e.event_type

/-- The syscall name the pairer derives from an entry event. -/
def entry_syscall_name (e : KernelEvent) : String :=
  pyReplace e.event_type "syscall_entry_" ""

/-- The syscall name the pairer derives from an exit event. -/
def exit_syscall_name (e : KernelEvent) : String :=
  pyReplace e.event_type "syscall_exit_" ""

/-- A paired record arose from exactly one entry event and one exit event
of the input, agreeing on tid and syscall name, with the pair's fields
taken from that entry/exit (so never from two entries or two exits). -/
def PairProvenance (events : List KernelEvent) (p : PairedSyscall) : Prop :=
  ∃ e1, e1 ∈ events ∧ ∃ e2, e2 ∈ events ∧
    isEntryEvent e1 = true ∧ isExitEvent e2 = true ∧
    entry_syscall_name e1 = p.syscall_name ∧
    exit_syscall_name e2 = p.syscall_name ∧
    e1.tid = p.tid ∧ e2.tid = p.tid ∧
    p = make_pair p.syscall_name e1 e2

theorem pair_step_entry (st : PairerState) (x : KernelEvent)
    (hE : strIn "syscall_entry" x.event_type = true) :
    pair_step st x =
      { st with pending_entries := assocSet st.pending_entries (x.tid, pyReplace x.event_type "syscall_entry_" "") x } := by
  unfold pair_step
  simp [hE]

theorem pair_step_exit_matched (st : PairerState) (x entry : KernelEvent)
    (hE : strIn "syscall_entry" x.event_type = false)
    (hX : strIn "syscall_exit" x.event_type = true)
    (hget : assocGet st.pending_entries
      (x.tid, pyReplace x.event_type "syscall_exit_" "") = some entry) :
    pair_step st x =
      { pending_entries := assocRemove st.pending_entries (x.tid, pyReplace x.event_type "syscall_exit_" ""),
        pairs := st.pairs ++ [make_pair (pyReplace x.event_type "syscall_exit_" "") entry x],
        fd := update_fd_mapping st.fd (make_pair (pyReplace x.event_type "syscall_exit_" "") entry x) } := by
  unfold pair_step
  simp [hE, hX, hget]

theorem pair_step_exit_unmatched (st : PairerState) (x : KernelEvent)
    (hE : strIn "syscall_entry" x.event_type = false)
    (hX : strIn "syscall_exit" x.event_type = true)
    (hget : assocGet st.pending_entries
      (x.tid, pyReplace x.event_type "syscall_exit_" "") = Option.none) :
    pair_step st x = st := by
  unfold pair_step
  simp [hE, hX, hget]

theorem pair_step_other (st : PairerState) (x : KernelEvent)
    (hE : strIn "syscall_entry" x.event_type = false)
    (hX : strIn "syscall_exit" x.event_type = false) :
    pair_step st x = st := by
  unfold pair_step
  simp [hE, hX]

theorem pair_fold_provenance (events : List KernelEvent) :
    ∀ (remaining : List KernelEvent) (st : PairerState),
      (∀ r ∈ remaining, r ∈ events) →
      (∀ kv ∈ st.pending_entries, kv.2 ∈ events ∧
        isEntryEvent kv.2 = true ∧
        entry_syscall_name kv.2 = kv.1.2 ∧ kv.2.tid = kv.1.1) →
      (∀ p ∈ st.pairs, PairProvenance events p) →
      ∀ p ∈ (remaining.foldl pair_step st).pairs, PairProvenance events p := by
  intro remaining
  induction remaining with
  | nil =>
    intro st hsub hpend hpairs p hp
    exact hpairs p hp
  | cons x rest ih =>
    intro st hsub hpend hpairs
    simp only [List.foldl_cons]
    by_cases hE : strIn "syscall_entry" x.event_type = true
    · rw [pair_step_entry st x hE]
      refine ih _ (fun r hr => hsub r (List.mem_cons_of_mem _ hr)) ?_ hpairs
      intro kv hkv
      rcases mem_assocSet_sub _ _ _ _ hkv with h1 | h1
      · subst h1
        exact ⟨hsub x (List.mem_cons_self _ _), hE, rfl, rfl⟩
      · exact hpend kv h1
    · have hE' : strIn "syscall_entry" x.event_type = false := by
        cases h : strIn "syscall_entry" x.event_type
        · rfl
        · exact absurd h hE
      by_cases hX : strIn "syscall_exit" x.event_type = true
      · cases hget : assocGet st.pending_entries
            (x.tid, pyReplace x.event_type "syscall_exit_" "") with
        | some entry =>
          rw [pair_step_exit_matched st x entry hE' hX hget]
          refine ih _ (fun r hr => hsub r (List.mem_cons_of_mem _ hr)) ?_ ?_
          · intro kv hkv
            exact hpend kv (mem_assocRemove_sub _ _ _ hkv)
          · intro p hp
            rcases List.mem_append.mp hp with h1 | h1
            · exact hpairs p h1
            · rw [List.mem_singleton.mp h1]
              have hker := hpend _ (assocGet_mem _ _ _ hget)
              refine ⟨entry, hker.1, x, hsub x (List.mem_cons_self _ _),
                hker.2.1, ?_, hker.2.2.1, rfl, hker.2.2.2, rfl, rfl⟩
              simp [isExitEvent, hE', hX]
        | none =>
          rw [pair_step_exit_unmatched st x hE' hX hget]
          exact ih st (fun r hr => hsub r (List.mem_cons_of_mem _ hr))
            hpend hpairs
      · have hX' : strIn "syscall_exit" x.event_type = false := by
          cases h : strIn "syscall_exit" x.event_type
          · rfl
          · exact absurd h hX
        rw [pair_step_other st x hE' hX']
        exact ih st (fun r hr => hsub r (List.mem_cons_of_mem _ hr))
          hpend hpairs

theorem pair_fold_duration :
    ∀ (remaining : List KernelEvent) (st : PairerState),
      remaining.Pairwise (fun a b => a.timestamp ≤ b.timestamp) →
      (∀ kv ∈ st.pending_entries,
        ∀ r ∈ remaining, kv.2.timestamp ≤ r.timestamp) →
      (∀ p ∈ st.pairs, p.start_time ≤ p.end_time) →
      ∀ p ∈ (remaining.foldl pair_step st).pairs,
        p.start_time ≤ p.end_time := by
  intro remaining
  induction remaining with
  | nil =>
    intro st _ _ hpairs p hp
    exact hpairs p hp
  | cons x rest ih =>
    intro st hsort hpend hpairs
    have hx := (List.pairwise_cons.mp hsort).1
    have hrest := (List.pairwise_cons.mp hsort).2
    simp only [List.foldl_cons]
    by_cases hE : strIn "syscall_entry" x.event_type = true
    · rw [pair_step_entry st x hE]
      refine ih _ hrest ?_ hpairs
      intro kv hkv r hr
      rcases mem_assocSet_sub _ _ _ _ hkv with h1 | h1
      · subst h1
        exact hx r hr
      · exact hpend kv h1 r (List.mem_cons_of_mem _ hr)
    · have hE' : strIn "syscall_entry" x.event_type = false := by
        cases h : strIn "syscall_entry" x.event_type
        · rfl
        · exact absurd h hE
      by_cases hX : strIn "syscall_exit" x.event_type = true
      · cases hget : assocGet st.pending_entries
            (x.tid, pyReplace x.event_type "syscall_exit_" "") with
        | some entry =>
          rw [pair_step_exit_matched st x entry hE' hX hget]
          refine ih _ hrest ?_ ?_
          · intro kv hkv r hr
            exact hpend kv (mem_assocRemove_sub _ _ _ hkv) r
              (List.mem_cons_of_mem _ hr)
          · intro p hp
            rcases List.mem_append.mp hp with h1 | h1
            · exact hpairs p h1
            · rw [List.mem_singleton.mp h1]
              exact hpend _ (assocGet_mem _ _ _ hget) x
                (List.mem_cons_self _ _)
        | none =>
          rw [pair_step_exit_unmatched st x hE' hX hget]
          refine ih st hrest ?_ hpairs
          intro kv hkv r hr
          exact hpend kv hkv r (List.mem_cons_of_mem _ hr)
      · have hX' : strIn "syscall_exit" x.event_type = false := by
          cases h : strIn "syscall_exit" x.event_type
          · rfl
          · exact absurd h hX
        rw [pair_step_other st x hE' hX']
        refine ih st hrest ?_ hpairs
        intro kv hkv r hr
        exact hpend kv hkv r (List.mem_cons_of_mem _ hr)

/-- C3 (amended): every pair the pairer produces is formed from exactly
one entry and one exit event agreeing on tid and syscall name (never two
entries or two exits); and when the input's timestamps are non-decreasing
in list order, every pair also satisfies `start_time <= end_time`. -/
theorem c3_pairs_one_entry_one_exit (fd0 : FdState)
    (events : List KernelEvent) :
    (∀ p ∈ (pair_syscalls fd0 events).pairs, PairProvenance events p) ∧
    (events.Pairwise (fun a b => a.timestamp ≤ b.timestamp) →
      ∀ p ∈ (pair_syscalls fd0 events).pairs,
        p.start_time ≤ p.end_time) := by
  constructor
  · exact pair_fold_provenance events events
      { pending_entries := [], pairs := [], fd := fd0 }
      (fun r hr => hr) (by simp [assocGet]) (by simp)
  · intro hsorted
    exact pair_fold_duration events
      { pending_entries := [], pairs := [], fd := fd0 }
      hsorted (by simp [assocGet]) (by simp)

/-- Witness for C3's amended statement on the sorted openat entry/exit
trace fragment. -/
theorem c3_witness :
    PairProvenance [openAEntry, openAExit]
      (make_pair "openat" openAEntry openAExit) ∧
    (make_pair "openat" openAEntry openAExit).start_time ≤
      (make_pair "openat" openAEntry openAExit).end_time :=
  ⟨(c3_pairs_one_entry_one_exit initFdState [openAEntry, openAExit]).1
      _ (by decide),
   (c3_pairs_one_entry_one_exit initFdState [openAEntry, openAExit]).2
      (by decide) _ (by decide)⟩
